import Mathlib

/-!
Verification of the output-assembly and ranking subsystem of
`square_skill_api` (file `src/square_skill_api/models/prediction.py`).

The Python code is shallowly embedded: pydantic models become structures,
floats become rationals, fallible code returns `Except PyError`, and the one
place the source mutates its input (the `attributions.extend` in
`extend_and_sort_attributions_to_scores`) is modelled by returning the final
state of the mutated list alongside the result.
-/

namespace SquareSkillApi

/-- The kinds of Python exceptions the embedded code can raise.
`validationError` stands for a pydantic `ValidationError`. -/
inductive PyError where
  | typeError
  | valueError
  | indexError
  | validationError
deriving DecidableEq

deriving instance DecidableEq for Except

/-- `NO_ANSWER_FOUND_STRING` (line 10). -/
def NO_ANSWER_FOUND_STRING : String := "No answer found."

/-- `PredictionOutput` (lines 13-21). -/
structure PredictionOutput where
  output : String
  output_score : ℚ
deriving DecidableEq

/-- `PredictionDocument` (lines 24-39); fields with pydantic defaults keep them.
In particular `document_score` defaults to 0. -/
structure PredictionDocument where
  index : String := ""
  document_id : String := ""
  document : String
  span : Option (List Int) := none
  url : String := ""
  source : String := ""
  document_score : ℚ := 0
deriving DecidableEq

/-- `Node` (lines 42-47). -/
structure Node where
  id : Int
  name : String
  q_node : Bool
  ans_node : Bool
  weight : ℚ
deriving DecidableEq

/-- `Edge` (lines 50-54). -/
structure Edge where
  src : Int
  target : Int
  weight : ℚ
  label : String
deriving DecidableEq

/-- `SubGraph` (lines 57-59); the Python dicts become association lists. -/
structure SubGraph where
  nodes : List (String × Node)
  edges : List (String × Edge)
deriving DecidableEq

/-- `PredictionGraph` (lines 62-64). -/
structure PredictionGraph where
  lm_subgraph : SubGraph
  attn_subgraph : SubGraph
deriving DecidableEq

/-- A raw attribution payload entry, as found in `model_api_output["attributions"]`:
a mapping from string keys to per-context lists of values
(`List[Dict[str, List[List[int]]]]` in the source annotation), modelled as an
association list over rational-valued rows. Only its truthiness (non-emptiness)
and its per-key rows are ever inspected by the embedded code. -/
structure PyAttr where
  entries : List (String × List (List ℚ))
deriving DecidableEq

/-- The mapping assembled by `get_attribution_by_context_i`: one row per key. -/
abbrev ParsedAttr := List (String × List ℚ)

/-- A value stored in `Prediction.attributions`. Python assigns heterogeneous
objects there (payload dicts in the classification path, the parsed mapping in
the QA path); the embedding keeps them apart with a sum. -/
inductive AttrVal where
  | raw (a : PyAttr)
  | parsed (p : ParsedAttr)
deriving DecidableEq

/-- `Adversarial` (lines 81-82): `indices: List[int] = Field(None)`. -/
structure Adversarial where
  indices : Option (List Int) := none
deriving DecidableEq

/-- `Prediction` (lines 85-104). -/
structure Prediction where
  question : String
  prediction_score : ℚ
  prediction_output : PredictionOutput
  prediction_documents : List PredictionDocument := []
  prediction_graph : Option PredictionGraph := none
  attributions : Option AttrVal := none
deriving DecidableEq

/-- `QueryOutput.sort_predictions_key` (lines 116-138), branch for a typed
`Prediction` (lines 120-127). `getattr(p.prediction_documents[0],
"document_score", 1)` always finds the attribute (it is a pydantic field with
default 0), so the fallback 1 of `getattr` is unreachable and the stored value
is used; the initial value 1 survives only when `prediction_documents` is empty. -/
def sort_predictions_key (p : Prediction) : Bool × ℚ × ℚ :=
  let document_score : ℚ :=
    match p.prediction_documents with
    | [] => 1
    | d :: _ => d.document_score
  let answer_found : Bool :=
    !(p.prediction_output.output == "" || p.prediction_output.output == NO_ANSWER_FOUND_STRING)
  (answer_found, p.prediction_score, document_score)

/-- Python ordering of a `(float, float)` pair (lexicographic), as a Boolean
less-or-equal test. -/
def rqLE (a b : ℚ × ℚ) : Bool :=
  if a.1 = b.1 then decide (a.2 ≤ b.2) else decide (a.1 < b.1)

/-- Python ordering of a `(bool, float, float)` tuple (lexicographic, with
`False < True`), as a Boolean less-or-equal test. -/
def keyLE (a b : Bool × ℚ × ℚ) : Bool :=
  if a.1 = b.1 then rqLE a.2 b.2 else b.1

/-- The comparison used by `sorted(..., key=cls.sort_predictions_key,
reverse=True)`: `a` may stay before `b` iff the key of `b` is at most the key
of `a`. Used with a stable merge sort this is exactly CPython's stable
descending sort. -/
def predDescLE (a b : Prediction) : Bool :=
  keyLE (sort_predictions_key b) (sort_predictions_key a)

/-- The `sort_predictions` root validator (lines 166-183): sort unless
`adversarial` is set. -/
def sort_predictions (adversarial : Option Adversarial) (predictions : List Prediction) :
    List Prediction :=
  if adversarial.isNone then predictions.mergeSort predDescLE else predictions

/-- `QueryOutput` (lines 107-114), as stored after validation. -/
structure QueryOutput where
  predictions : List Prediction
  adversarial : Option Adversarial := none
deriving DecidableEq

/-- Constructing a `QueryOutput` runs the `sort_predictions` root validator. -/
def QueryOutput.make (predictions : List Prediction) (adversarial : Option Adversarial) :
    QueryOutput :=
  { predictions := sort_predictions adversarial predictions, adversarial := adversarial }

/-- A Python value supplied as `questions` or `context` (the shapes the source
handles: `None`, `str`, `List[str]`), plus `pyother` standing for a value of
any other Python type, of which only the truthiness is observable here. -/
inductive PyVal where
  | pynone
  | pystr (s : String)
  | pylist (xs : List String)
  | pyother (t : Bool)
deriving DecidableEq

/-- Python truthiness of a `PyVal`. -/
def PyVal.truthy : PyVal → Bool
  | .pynone => false
  | .pystr s => s != ""
  | .pylist xs => !xs.isEmpty
  | .pyother t => t

/-- A Python value supplied as `context_score` (`None`, `float`, `List[float]`). -/
inductive PyScoreVal where
  | csnone
  | csfloat (x : ℚ)
  | cslist (xs : List ℚ)
deriving DecidableEq

/-- `overwrite_from_model_api_output` (lines 140-152). `payloadVal` is the
value of `model_api_output[key]` when the key is present, `none` otherwise;
`if key in model_api_output and model_api_output[key]` keeps the caller's
`value` both when the key is absent and when its value is falsy. A string
result is broadcast to a list of length `len`. -/
def overwrite_from_model_api_output (payloadVal : Option PyVal) (value : PyVal) (len : Nat) :
    PyVal :=
  let v : PyVal :=
    match payloadVal with
    | some w => if w.truthy then w else value
    | none => value
  match v with
  | .pystr s => .pylist (List.replicate len s)
  | w => w

/-- `_prediction_documents_iter_from_context` (lines 185-224). -/
def prediction_documents_iter_from_context (iter_len : Nat) (context : PyVal) :
    Except PyError (List (List PredictionDocument)) :=
  match context with
  | .pynone => .ok (List.replicate iter_len [])
  | .pystr s => .ok (List.replicate iter_len [{ document := s }])
  | .pylist cs =>
      if cs.length ≠ iter_len then .error .valueError
      else .ok (cs.map fun c => [{ document := c }])
  | .pyother _ => .error .typeError

/-- `np.argsort(scores)`: the indices that sort `scores` ascending. numpy's
default sort is an introsort whose tie order the documentation leaves
unspecified; the embedding uses the stable variant (ties keep index order),
which agrees with numpy whenever the scores are pairwise distinct. -/
def argsort (scores : List ℚ) : List Nat :=
  (List.range scores.length).mergeSort fun i j => decide (scores.getD i 0 ≤ scores.getD j 0)

/-- `np.argsort(scores)[::-1]` (line 232). -/
def desc_sort_idx (scores : List ℚ) : List Nat :=
  (argsort scores).reverse

/-- `extend_and_sort_attributions_to_scores` (lines 226-238). The first
component is the Python return value. Because `attributions.extend(...)`
mutates the caller's list in place, the second component is the final state of
the caller's `attributions` list after the call. `sorted(zip(sort_idx,
attributions))` compares pairs lexicographically, but the first components
(a permutation of the indices) are pairwise distinct, so only they decide the
order. When `len_diff <= 0` nothing is extended or sorted and the input list
is returned as is. -/
def extend_and_sort_attributions_to_scores {α : Type} (scores : List ℚ)
    (attributions : List α) (fill_value : α) : List α × List α :=
  let sort_idx := desc_sort_idx scores
  let len_diff : Int := (scores.length : Int) - (attributions.length : Int)
  if 0 < len_diff then
    let extended := attributions ++ List.replicate (scores.length - attributions.length) fill_value
    (((sort_idx.zip extended).mergeSort fun a b => decide (a.1 ≤ b.1)).map Prod.snd, extended)
  else (attributions, attributions)

/-- The payload consumed by `from_sequence_classification`. `logits0` is
`model_api_output["model_outputs"]["logits"][0]`; `questions`, `context` and
`attributions` are the homonymous optional keys; `adversarial` is `some v`
when the key `"adversarial"` is present, where `v` is the parsed value
(`none` for a JSON null). An `attributions` entry may itself be a Python
`None`, hence `Option PyAttr`. -/
structure SeqClfOutput where
  logits0 : List ℚ
  questions : Option PyVal := none
  context : Option PyVal := none
  attributions : Option (List (Option PyAttr)) := none
  adversarial : Option (Option Adversarial) := none
deriving DecidableEq

/-- Pad a list with `none` up to length `m`: the per-argument behaviour of
`itertools.zip_longest(..., fillvalue=None)`. -/
def padTo {α : Type} (m : Nat) (l : List α) : List (Option α) :=
  l.map some ++ List.replicate (m - l.length) none

/-- One `Prediction` of the classification loop body (lines 283-311), given
the components drawn from one `zip_longest` tuple. The attribution is attached
only when truthy (line 308): not a fill value, not a `None` entry, not an
empty dict. -/
def mkSeqClfPrediction (q : String) (sc : ℚ) (ans : String)
    (docs : List PredictionDocument) (attr : Option (Option PyAttr)) : Prediction :=
  let p : Prediction :=
    { question := q, prediction_score := sc,
      prediction_output := { output := ans, output_score := sc },
      prediction_documents := docs }
  match attr with
  | some (some a) => if a.entries.isEmpty then p else { p with attributions := some (.raw a) }
  | _ => p

/-- The loop body including pydantic validation: `None` fills from
`zip_longest` make `Prediction(...)`/`PredictionOutput(...)` raise (their
fields are required, and a list field rejects `None`). -/
def buildSeqClfPrediction :
    Option String × Option ℚ × Option String × Option (List PredictionDocument) ×
      Option (Option PyAttr) → Except PyError Prediction
  | (some q, some sc, some ans, some docs, attr) => .ok (mkSeqClfPrediction q sc ans docs attr)
  | _ => .error .validationError

/-- The positional zip construction of predictions for the classification
strategy when all inputs align, used to state order-preservation claims. -/
def zip5Build : List String → List ℚ → List String → List (List PredictionDocument) →
    List (Option (Option PyAttr)) → List Prediction
  | q :: qs, sc :: scs, a :: as_, d :: ds, t :: ts =>
      mkSeqClfPrediction q sc a d t :: zip5Build qs scs as_ ds ts
  | _, _, _, _, _ => []

/-- The zip and envelope stage of `from_sequence_classification` (lines
283-320): `zip_longest` the five aligned sequences, build one prediction per
tuple, then construct the envelope with the payload's adversarial value when
the key is present. `pyother` questions are treated as non-iterable. -/
def seqClfAssemble (questionsR : PyVal) (logits0 : List ℚ) (answers : List String)
    (docs : List (List PredictionDocument)) (all_attributions : List (Option PyAttr))
    (adversarial : Option (Option Adversarial)) : Except PyError QueryOutput :=
  match questionsR with
  | .pylist qs =>
      let m := max (max (max (max qs.length logits0.length) answers.length) docs.length)
        all_attributions.length
      let tuples := (padTo m qs).zip ((padTo m logits0).zip ((padTo m answers).zip
        ((padTo m docs).zip (padTo m all_attributions))))
      match tuples.mapM buildSeqClfPrediction with
      | .error e => .error e
      | .ok preds =>
          match adversarial with
          | some adv => .ok (QueryOutput.make preds adv)
          | none => .ok (QueryOutput.make preds none)
  | _ => .error .typeError

/-- `from_sequence_classification` (lines 240-320). Returns the Python result
(or the exception) together with the final state of the payload: when the
payload carries an `attributions` list, line 236 extends that very list in
place. A payload whose `"attributions"` key holds `None` (rather than a list)
is not modelled: the source would fail on `len(None)`. -/
def from_sequence_classification (questions : PyVal) (answers : List String)
    (out : SeqClfOutput) (context : PyVal) :
    Except PyError QueryOutput × SeqClfOutput :=
  let n := out.logits0.length
  let questionsR := overwrite_from_model_api_output out.questions questions n
  let contextR := overwrite_from_model_api_output out.context context n
  match prediction_documents_iter_from_context answers.length contextR with
  | .error e => (.error e, out)
  | .ok docs =>
    let es := extend_and_sort_attributions_to_scores out.logits0 (out.attributions.getD []) none
    let out' : SeqClfOutput :=
      match out.attributions with
      | some _ => { out with attributions := some es.2 }
      | none => out
    (seqClfAssemble questionsR out.logits0 answers docs es.1 out.adversarial, out')

/-- The payload consumed by `from_sequence_classification_with_graph`.
`labels0` is `model_api_output["labels"][0]`; `lm_subgraph` and
`attn_subgraph` are required by the intended payload shape (a missing key
would raise `KeyError`, which is not modelled). The `adversarial` key may be
present in the payload dict but is never read by this constructor. -/
structure SeqClfGraphOutput where
  logits0 : List ℚ
  questions : Option PyVal := none
  labels0 : Int
  lm_subgraph : SubGraph
  attn_subgraph : SubGraph
  adversarial : Option (Option Adversarial) := none
deriving DecidableEq

/-- The zip loop of `from_sequence_classification_with_graph` (lines 336-358):
`zip` truncates to the shortest input, and only the prediction at position
`labels0` receives the graph. -/
def graphZipPredictions (qs : List String) (scores : List ℚ) (answers : List String)
    (out : SeqClfGraphOutput) : List Prediction :=
  (qs.zip (scores.zip answers)).enum.map fun it =>
    let p : Prediction :=
      { question := it.2.1, prediction_score := it.2.2.1,
        prediction_output := { output := it.2.2.2, output_score := it.2.2.1 } }
    let g : PredictionGraph :=
      { lm_subgraph := out.lm_subgraph, attn_subgraph := out.attn_subgraph }
    if (it.1 : Int) = out.labels0 then { p with prediction_graph := some g } else p

/-- `from_sequence_classification_with_graph` (lines 322-360). Note line 360:
the envelope is built without adversarial info, so the payload's
`"adversarial"` key is ignored and the root validator always sorts. -/
def from_sequence_classification_with_graph (questions : PyVal) (answers : List String)
    (out : SeqClfGraphOutput) : Except PyError QueryOutput :=
  let questionsR := overwrite_from_model_api_output out.questions questions out.logits0.length
  match questionsR with
  | .pylist qs => .ok (QueryOutput.make (graphZipPredictions qs out.logits0 answers out) none)
  | _ => .error .typeError

/-- One candidate answer of the QA payload: `{"answer", "start", "end",
"score"}`. The `end` key is called `stop` here because `end` is reserved in
Lean. -/
structure QAAnswer where
  answer : String
  start : Int
  stop : Int
  score : ℚ
deriving DecidableEq

/-- The payload consumed by `from_question_answering`: `answers` is
`model_api_output["answers"]` (one list of candidates per question/context
pair); `attributions` is the optional `"attributions"` key. -/
structure QAOutput where
  answers : List (List QAAnswer)
  questions : Option PyVal := none
  attributions : Option (List PyAttr) := none
  adversarial : Option (Option Adversarial) := none
deriving DecidableEq

/-- Python list subscription: `l[i]`, raising `IndexError` out of range
(negative indices never occur here). -/
def pyIndex {α : Type} (l : List α) (i : Nat) : Except PyError α :=
  match l.get? i with
  | some v => .ok v
  | none => .error .indexError

/-- Tail of the `np.argmax` computation: the index of the first maximum. -/
def argmaxAux (best : ℚ) (bestIdx cur : Nat) : List ℚ → Nat
  | [] => bestIdx
  | x :: xs => if best < x then argmaxAux x cur (cur + 1) xs else argmaxAux best bestIdx (cur + 1) xs

/-- `np.argmax`: index of the first maximal element; `ValueError` on an empty
list. -/
def pyArgmax : List ℚ → Except PyError Nat
  | [] => .error .valueError
  | x :: xs => .ok (argmaxAux x 0 1 xs)

/-- `get_attribution_by_context_i` (lines 154-164): for every key of
`attributions[0]`, take the `context_i`-th row of its value list. The final
`Attributions.parse_obj` validation of the assembled mapping is modelled as
returning the mapping itself. -/
def get_attribution_by_context_i (attributions : List PyAttr) (context_i : Nat) :
    Except PyError ParsedAttr :=
  match attributions with
  | [] => .error .indexError
  | a0 :: _ =>
      a0.entries.mapM fun kv =>
        match kv.2.get? context_i with
        | some row => Except.ok (kv.1, row)
        | none => Except.error PyError.indexError

/-- Lines 401-406 of the QA loop: resolve the per-pair context text and score.
In the list branch `context[i_context]` is evaluated before
`context_score[i_context]`, and subscripting a `None` or a float raises
`TypeError`. In the other branch the raw `context_score` flows through
unchecked (a list there only fails later, at document validation). -/
def qaResolveCtx (context : PyVal) (context_score : PyScoreVal) (i_context : Nat) :
    Except PyError (PyVal × PyScoreVal) :=
  match context with
  | .pylist cs =>
      match pyIndex cs i_context with
      | .error e => .error e
      | .ok c =>
          match context_score with
          | .cslist ss =>
              match pyIndex ss i_context with
              | .error e => .error e
              | .ok s => .ok (.pystr c, .csfloat s)
          | _ => .error .typeError
  | .pynone =>
      .ok (.pystr "", (match context_score with | .csnone => .csfloat 1 | v => v))
  | c =>
      .ok (c, (match context_score with | .csnone => .csfloat 1 | v => v))

/-- Lines 429-439: the per-answer document list. Built only when the context
text is truthy; pydantic rejects a non-string document or a non-float score. -/
def qaPredictionDocuments (cdoc : PyVal) (cscore : PyScoreVal) (a : QAAnswer) :
    Except PyError (List PredictionDocument) :=
  if cdoc.truthy then
    match cdoc, cscore with
    | .pystr s, .csfloat f =>
        .ok [{ document := s, span := some [a.start, a.stop], document_score := f }]
    | _, _ => .error .validationError
  else .ok []

/-- The body of the outer QA loop (lines 398-451) for one question/context
pair. -/
def qaGroup (context : PyVal) (context_score : PyScoreVal)
    (attributions : Option (List PyAttr)) (i_context : Nat) (question : String)
    (answers : List QAAnswer) : Except PyError (List Prediction) := do
  let rc ← qaResolveCtx context context_score i_context
  let scores := answers.map (·.score)
  let top ← pyArgmax scores
  answers.enum.mapM fun ia => do
    let answer_str := if ia.2.answer = "" then NO_ANSWER_FOUND_STRING else ia.2.answer
    let docs ← qaPredictionDocuments rc.1 rc.2 ia.2
    let p : Prediction :=
      { question := question, prediction_score := ia.2.score,
        prediction_output := { output := answer_str, output_score := ia.2.score },
        prediction_documents := docs }
    let truthyAttrs : Bool :=
      match attributions with
      | some attrs => !attrs.isEmpty
      | none => false
    if truthyAttrs && ia.1 == top then do
      let pa ← get_attribution_by_context_i (attributions.getD []) i_context
      pure { p with attributions := some (.parsed pa) }
    else
      pure p

/-- `from_question_answering` (lines 362-460). -/
def from_question_answering (questions : PyVal) (out : QAOutput) (context : PyVal)
    (context_score : PyScoreVal) : Except PyError QueryOutput :=
  let questionsR := overwrite_from_model_api_output out.questions questions out.answers.length
  match questionsR with
  | .pylist qs => do
      let groups := qs.zip out.answers
      let predss ← groups.enum.mapM fun ig =>
        qaGroup context context_score out.attributions ig.1 ig.2.1 ig.2.2
      let preds := predss.flatten
      match out.adversarial with
      | some adv => .ok (QueryOutput.make preds adv)
      | none => .ok (QueryOutput.make preds none)
  | _ => .error .typeError

/-- The payload consumed by `from_generation`: `generated_texts0` is
`model_api_output["generated_texts"][0]`. -/
structure GenOutput where
  generated_texts0 : List String
  questions : Option PyVal := none
  attributions : Option (List (Option PyAttr)) := none
deriving DecidableEq

/-- `from_generation` (lines 462-501). Its first statement (lines 479-481) is
`cls.overwrite_from_model_api_output(questions, model_api_output, len=...)`:
the two positional arguments are bound to the parameters `model_api_output`
and `key`, the keyword binds `len`, and the required third positional
parameter `value` receives nothing, so Python raises `TypeError:
overwrite_from_model_api_output() missing 1 required positional argument:
'value'` before any prediction is built. The constructor therefore raises on
every call, and the remainder of its body (lines 483-501) is unreachable. -/
def from_generation (_questions : PyVal) (_out : GenOutput) (_context : PyVal)
    (_context_score : PyScoreVal) : Except PyError QueryOutput :=
  Except.error .typeError

/-- The mapping (dict) form of a `PredictionDocument`, as handled by the
`isinstance(p, Dict)` branch of the ranking key: the `document_score` key may
be absent. Keys other than `document_score` are not read by that branch. -/
structure DictPredictionDocument where
  document : String
  document_score : Option ℚ := none
deriving DecidableEq

/-- The mapping (dict) form of a `Prediction`, as read by the
`isinstance(p, Dict)` branch (lines 128-135). -/
structure DictPrediction where
  output : String
  prediction_score : ℚ
  prediction_documents : List DictPredictionDocument
deriving DecidableEq

/-- `QueryOutput.sort_predictions_key`, branch for a mapping (lines 128-135):
`p["prediction_documents"][0].get("document_score", 1)` falls back to 1 when
the key is absent. -/
def sort_predictions_key_dict (p : DictPrediction) : Bool × ℚ × ℚ :=
  let document_score : ℚ :=
    match p.prediction_documents with
    | [] => 1
    | d :: _ => d.document_score.getD 1
  let answer_found : Bool :=
    !(p.output == "" || p.output == NO_ANSWER_FOUND_STRING)
  (answer_found, p.prediction_score, document_score)

/-- The full mapping form of a typed document: every field serialized,
including `document_score`. -/
def PredictionDocument.toDict (d : PredictionDocument) : DictPredictionDocument :=
  { document := d.document, document_score := some d.document_score }

/-- The mapping form of a typed document whose `document_score` key is
omitted (a document that does not carry an explicit score). -/
def PredictionDocument.toDictOmitScore (d : PredictionDocument) : DictPredictionDocument :=
  { document := d.document }

/-- The full mapping form of a typed prediction. -/
def Prediction.toDict (p : Prediction) : DictPrediction :=
  { output := p.prediction_output.output, prediction_score := p.prediction_score,
    prediction_documents := p.prediction_documents.map PredictionDocument.toDict }

/-- The mapping form of a typed prediction whose documents omit their
`document_score` keys. -/
def Prediction.toDictOmitScores (p : Prediction) : DictPrediction :=
  { output := p.prediction_output.output, prediction_score := p.prediction_score,
    prediction_documents := p.prediction_documents.map PredictionDocument.toDictOmitScore }

/-- The `answer_found` component of the ranking key. -/
def answer_found (p : Prediction) : Bool :=
  (sort_predictions_key p).1

/-- Propositional form of the key order `keyLE`, used for reasoning. -/
def keyProp (a b : Bool × ℚ × ℚ) : Prop :=
  (a.1 = false ∧ b.1 = true)
  ∨ (a.1 = b.1 ∧ (a.2.1 < b.2.1 ∨ (a.2.1 = b.2.1 ∧ a.2.2 ≤ b.2.2)))

/-- A concrete answered prediction without documents (ranking key `(true, 2, 1)`). -/
def demoP1 : Prediction :=
  { question := "q", prediction_score := 2,
    prediction_output := { output := "a", output_score := 2 } }

/-- A second concrete prediction with the same ranking key as `demoP1`. -/
def demoP2 : Prediction :=
  { question := "r", prediction_score := 2,
    prediction_output := { output := "b", output_score := 2 } }

/-- A concrete prediction whose document was built without an explicit
`document_score`, so the typed record stores the default 0. -/
def cexC6 : Prediction :=
  { question := "q", prediction_score := 5,
    prediction_output := { output := "Paris", output_score := 5 },
    prediction_documents := [{ document := "ctx" }] }

/-- An empty reasoning subgraph for concrete graph payloads. -/
def demoSubGraph : SubGraph :=
  { nodes := [], edges := [] }

/-- A concrete graph-classification payload that carries adversarial
annotations and ascending logits. -/
def cexGraphOut : SeqClfGraphOutput :=
  { logits0 := [mkRat 1 10, mkRat 9 10], labels0 := 0,
    lm_subgraph := demoSubGraph, attn_subgraph := demoSubGraph,
    adversarial := some (some { indices := some [0] }) }

/-- The zip-order first prediction of the `cexGraphOut` call (carries the
graph, lowest score). -/
def cexGraphPA : Prediction :=
  { question := "q", prediction_score := mkRat 1 10,
    prediction_output := { output := "a", output_score := mkRat 1 10 },
    prediction_graph := some { lm_subgraph := demoSubGraph, attn_subgraph := demoSubGraph } }

/-- The zip-order second prediction of the `cexGraphOut` call (highest
score). -/
def cexGraphPB : Prediction :=
  { question := "q", prediction_score := mkRat 9 10,
    prediction_output := { output := "b", output_score := mkRat 9 10 } }

/-- A concrete classification payload whose `attributions` list is shorter
than its logits. -/
def cexSeqOut : SeqClfOutput :=
  { logits0 := [mkRat 1 2, mkRat 9 10],
    attributions := some [some { entries := [("k", [[1]])] }] }

/-- A concrete classification payload with adversarial annotations and
ascending logits. -/
def demoSeqOut : SeqClfOutput :=
  { logits0 := [mkRat 1 10, mkRat 9 10],
    adversarial := some (some { indices := some [0, 1] }) }

/-- A concrete QA payload with a single question/answer group. -/
def cexQAOut : QAOutput :=
  { answers := [[{ answer := "Paris", start := 0, stop := 5, score := mkRat 8 10 }]] }

/-- The prediction produced by the `cexQAOut` call. -/
def cexQAPred : Prediction :=
  { question := "q", prediction_score := mkRat 8 10,
    prediction_output := { output := "Paris", output_score := mkRat 8 10 },
    prediction_documents := [{ document := "A", span := some [0, 5], document_score := 1 }] }

theorem keyLE_iff_keyProp : ∀ (a b : Bool × ℚ × ℚ), keyLE a b = true ↔ keyProp a b := by
  rintro ⟨a1, a2, a3⟩ ⟨b1, b2, b3⟩
  unfold keyLE rqLE keyProp
  cases a1 <;> cases b1 <;> by_cases e2 : a2 = b2 <;> simp [e2, lt_irrefl]

theorem keyProp_refl (a : Bool × ℚ × ℚ) : keyProp a a :=
  Or.inr ⟨rfl, Or.inr ⟨rfl, le_refl _⟩⟩

theorem keyProp_trans {a b c : Bool × ℚ × ℚ} (h1 : keyProp a b) (h2 : keyProp b c) :
    keyProp a c := by
  unfold keyProp at h1 h2 ⊢
  rcases h1 with ⟨ha, hb⟩ | ⟨e1, h1⟩ <;> rcases h2 with ⟨hb', hc⟩ | ⟨e2, h2⟩
  · exact absurd hb' (by simp [hb])
  · exact Or.inl ⟨ha, e2 ▸ hb⟩
  · exact Or.inl ⟨e1.trans hb', hc⟩
  · refine Or.inr ⟨e1.trans e2, ?_⟩
    rcases h1 with h1 | ⟨f1, h1⟩ <;> rcases h2 with h2 | ⟨f2, h2⟩
    · exact Or.inl (by linarith)
    · exact Or.inl (by linarith [f2, h1])
    · exact Or.inl (by linarith [f1, h2])
    · exact Or.inr ⟨f1.trans f2, by linarith⟩

theorem keyProp_total (a b : Bool × ℚ × ℚ) : keyProp a b ∨ keyProp b a := by
  unfold keyProp
  by_cases e : a.1 = b.1
  · rcases lt_trichotomy a.2.1 b.2.1 with h | h | h
    · exact Or.inl (Or.inr ⟨e, Or.inl h⟩)
    · rcases le_total a.2.2 b.2.2 with h3 | h3
      · exact Or.inl (Or.inr ⟨e, Or.inr ⟨h, h3⟩⟩)
      · exact Or.inr (Or.inr ⟨e.symm, Or.inr ⟨h.symm, h3⟩⟩)
    · exact Or.inr (Or.inr ⟨e.symm, Or.inl h⟩)
  · cases ha : a.1 <;> cases hb : b.1
    · exact absurd (ha.trans hb.symm) e
    · exact Or.inl (Or.inl ⟨rfl, rfl⟩)
    · exact Or.inr (Or.inl ⟨rfl, rfl⟩)
    · exact absurd (ha.trans hb.symm) e

theorem keyLE_refl (a : Bool × ℚ × ℚ) : keyLE a a = true :=
  (keyLE_iff_keyProp a a).mpr (keyProp_refl a)

theorem keyLE_trans {a b c : Bool × ℚ × ℚ} (h1 : keyLE a b = true) (h2 : keyLE b c = true) :
    keyLE a c = true :=
  (keyLE_iff_keyProp a c).mpr
    (keyProp_trans ((keyLE_iff_keyProp a b).mp h1) ((keyLE_iff_keyProp b c).mp h2))

theorem keyLE_total (a b : Bool × ℚ × ℚ) : (keyLE a b || keyLE b a) = true := by
  rcases keyProp_total a b with h | h
  · simp [(keyLE_iff_keyProp a b).mpr h]
  · simp [(keyLE_iff_keyProp b a).mpr h]

/-- If `k1 ≤ k2` in key order and the first component of `k1` is `true`, so is
that of `k2`. -/
theorem keyLE_fst_le {k1 k2 : Bool × ℚ × ℚ} (h : keyLE k1 k2 = true) (h1 : k1.1 = true) :
    k2.1 = true := by
  rcases (keyLE_iff_keyProp k1 k2).mp h with ⟨ha, _⟩ | ⟨e, _⟩
  · exact absurd h1 (by simp [ha])
  · exact e ▸ h1

theorem predDescLE_trans (a b c : Prediction) (h1 : predDescLE a b = true)
    (h2 : predDescLE b c = true) : predDescLE a c = true :=
  keyLE_trans h2 h1

theorem predDescLE_total (a b : Prediction) : (predDescLE a b || predDescLE b a) = true :=
  keyLE_total (sort_predictions_key b) (sort_predictions_key a)

theorem sort_predictions_none (l : List Prediction) :
    sort_predictions none l = l.mergeSort predDescLE := rfl

theorem sort_none_pairwise (l : List Prediction) :
    (sort_predictions none l).Pairwise fun a b => predDescLE a b = true := by
  rw [sort_predictions_none]
  exact List.sorted_mergeSort predDescLE_trans predDescLE_total l

theorem sort_none_perm (l : List Prediction) : (sort_predictions none l).Perm l := by
  rw [sort_predictions_none]
  exact List.mergeSort_perm l _

theorem sort_none_stable (l : List Prediction) (a b : Prediction)
    (hk : predDescLE a b = true) (hs : List.Sublist [a, b] l) :
    List.Sublist [a, b] (sort_predictions none l) := by
  rw [sort_predictions_none]
  exact List.pair_sublist_mergeSort predDescLE_trans predDescLE_total hk hs

/-- Claim C1: for every `QueryOutput` constructed without adversarial info,
the predictions are sorted non-increasingly under the composite key computed
by `sort_predictions_key`, the result is a permutation of the input, and the
sort is stable: two predictions with equal keys keep their relative input
order. -/
theorem C1_sort_nonincreasing_and_stable (preds : List Prediction) :
    ((QueryOutput.make preds none).predictions).Pairwise
      (fun a b => keyLE (sort_predictions_key b) (sort_predictions_key a) = true)
    ∧ ((QueryOutput.make preds none).predictions).Perm preds
    ∧ ∀ a b : Prediction, sort_predictions_key a = sort_predictions_key b →
        List.Sublist [a, b] preds →
        List.Sublist [a, b] ((QueryOutput.make preds none).predictions) := by
  refine ⟨sort_none_pairwise preds, sort_none_perm preds, ?_⟩
  intro a b hk hs
  refine sort_none_stable preds a b ?_ hs
  unfold predDescLE
  rw [hk]
  exact keyLE_refl _

theorem C1_witness :
    ((QueryOutput.make [demoP1, demoP2] none).predictions).Pairwise
      (fun a b => keyLE (sort_predictions_key b) (sort_predictions_key a) = true)
    ∧ List.Sublist [demoP1, demoP2] ((QueryOutput.make [demoP1, demoP2] none).predictions) :=
  ⟨(C1_sort_nonincreasing_and_stable [demoP1, demoP2]).1,
   (C1_sort_nonincreasing_and_stable [demoP1, demoP2]).2.2 demoP1 demoP2 (by decide) (by decide)⟩

/-- Claim C7: in every envelope constructed without adversarial info, a
prediction whose output is empty or the no-answer sentinel (that is,
`answer_found` is false) never precedes one whose output is a real answer:
all no-answer predictions come strictly after all answered ones, whatever
their scores. -/
theorem C7_no_answer_sorts_last (preds : List Prediction) :
    ((QueryOutput.make preds none).predictions).Pairwise
      fun a b => answer_found b = true → answer_found a = true := by
  refine (sort_none_pairwise preds).imp ?_
  intro a b hab hb
  exact keyLE_fst_le hab hb

/-- Claim C6, counterexample: a typed prediction whose document was built
without an explicit `document_score` (stored default 0) is keyed differently
from its mapping form omitting the `document_score` key (fallback 1). -/
theorem C6_counterexample :
    sort_predictions_key_dict (Prediction.toDictOmitScores cexC6) ≠ sort_predictions_key cexC6 := by
  decide

/-- Claim C6, amended: the typed and mapping branches of the ranking key agree
on any mapping that carries an explicit `document_score` for its documents
(the full serialized form), and on documentless predictions even when scores
are omitted; a mapping whose lead document omits `document_score` is keyed
with lead score 1 whereas the typed record uses its stored value (default 0). -/
theorem C6_amended_key_agreement (p : Prediction) :
    sort_predictions_key_dict (Prediction.toDict p) = sort_predictions_key p
    ∧ (p.prediction_documents = [] →
        sort_predictions_key_dict (Prediction.toDictOmitScores p) = sort_predictions_key p) := by
  constructor
  · cases h : p.prediction_documents with
    | nil => simp [sort_predictions_key_dict, sort_predictions_key, Prediction.toDict, h]
    | cons d ds =>
        simp [sort_predictions_key_dict, sort_predictions_key, Prediction.toDict, h,
          PredictionDocument.toDict]
  · intro h
    simp [sort_predictions_key_dict, sort_predictions_key, Prediction.toDictOmitScores, h]

theorem C6_witness :
    sort_predictions_key_dict (Prediction.toDict demoP1) = sort_predictions_key demoP1
    ∧ sort_predictions_key_dict (Prediction.toDictOmitScores demoP1)
        = sort_predictions_key demoP1 :=
  ⟨(C6_amended_key_agreement demoP1).1, (C6_amended_key_agreement demoP1).2 rfl⟩

/-- Claim C4: the context-to-documents expansion yields `n` empty lists for
`None`, `n` singleton wrappers for a string, a positional wrapper list for a
length-matching list, a `ValueError` for a list of any other length, a
`TypeError` for any other type, and raises in no other case. -/
theorem C4_context_expansion (n : Nat) (s : String) (xs : List String) (t : Bool) :
    prediction_documents_iter_from_context n .pynone = .ok (List.replicate n [])
    ∧ prediction_documents_iter_from_context n (.pystr s)
        = .ok (List.replicate n [{ document := s }])
    ∧ (xs.length ≠ n →
        prediction_documents_iter_from_context n (.pylist xs) = .error .valueError)
    ∧ (xs.length = n →
        prediction_documents_iter_from_context n (.pylist xs)
          = .ok (xs.map fun c => [{ document := c }]))
    ∧ prediction_documents_iter_from_context n (.pyother t) = .error .typeError := by
  refine ⟨rfl, rfl, ?_, ?_, rfl⟩ <;>
    intro h <;> simp [prediction_documents_iter_from_context, h]

theorem C4_witness :
    prediction_documents_iter_from_context 2 (.pylist ["A"]) = .error .valueError
    ∧ prediction_documents_iter_from_context 2 (.pylist ["A", "B"])
        = .ok (["A", "B"].map fun c => [{ document := c }]) :=
  ⟨(C4_context_expansion 2 "X" ["A"] false).2.2.1 (by decide),
   (C4_context_expansion 2 "X" ["A", "B"] false).2.2.2.1 rfl⟩

theorem argsort_perm_range (scores : List ℚ) :
    (argsort scores).Perm (List.range scores.length) :=
  List.mergeSort_perm _ _

theorem desc_sort_idx_perm_range (scores : List ℚ) :
    (desc_sort_idx scores).Perm (List.range scores.length) :=
  (List.reverse_perm _).trans (argsort_perm_range scores)

theorem desc_sort_idx_length (scores : List ℚ) :
    (desc_sort_idx scores).length = scores.length := by
  simp [desc_sort_idx, argsort]

theorem argsort_pairwise (scores : List ℚ) :
    (argsort scores).Pairwise fun i j => scores.getD i 0 ≤ scores.getD j 0 := by
  have htrans : ∀ (a b c : ℕ),
      (fun i j : ℕ => decide (scores.getD i 0 ≤ scores.getD j 0)) a b = true →
      (fun i j : ℕ => decide (scores.getD i 0 ≤ scores.getD j 0)) b c = true →
      (fun i j : ℕ => decide (scores.getD i 0 ≤ scores.getD j 0)) a c = true := by
    intro a b c h1 h2
    simp only [decide_eq_true_eq] at h1 h2 ⊢
    linarith
  have htotal : ∀ (a b : ℕ),
      ((fun i j : ℕ => decide (scores.getD i 0 ≤ scores.getD j 0)) a b
        || (fun i j : ℕ => decide (scores.getD i 0 ≤ scores.getD j 0)) b a) = true := by
    intro a b
    simp only [Bool.or_eq_true, decide_eq_true_eq]
    exact le_total _ _
  have h := List.sorted_mergeSort htrans htotal (List.range scores.length)
  exact h.imp (by intro a b hab; simpa using hab)

theorem desc_sort_idx_pairwise (scores : List ℚ) :
    (desc_sort_idx scores).Pairwise fun i j => scores.getD j 0 ≤ scores.getD i 0 := by
  unfold desc_sort_idx
  rw [List.pairwise_reverse]
  exact argsort_pairwise scores

/-- If the first components of `ps` form a permutation of `range n`, then in
the merge sort of `ps` by first component, the pair `p` ends up exactly at
position `p.1`. -/
theorem mergeSort_get?_of_fst_perm_range {α : Type} {n : Nat} (ps : List (ℕ × α))
    (h : (ps.map Prod.fst).Perm (List.range n)) {p : ℕ × α} (hp : p ∈ ps) :
    (ps.mergeSort fun a b => decide (a.1 ≤ b.1)).get? p.1 = some p := by
  have htrans : ∀ (a b c : ℕ × α),
      (fun a b : ℕ × α => decide (a.1 ≤ b.1)) a b = true →
      (fun a b : ℕ × α => decide (a.1 ≤ b.1)) b c = true →
      (fun a b : ℕ × α => decide (a.1 ≤ b.1)) a c = true := by
    intro a b c h1 h2
    simp only [decide_eq_true_eq] at h1 h2 ⊢
    omega
  have htotal : ∀ (a b : ℕ × α),
      ((fun a b : ℕ × α => decide (a.1 ≤ b.1)) a b
        || (fun a b : ℕ × α => decide (a.1 ≤ b.1)) b a) = true := by
    intro a b
    simp only [Bool.or_eq_true, decide_eq_true_eq]
    omega
  have hperm : (ps.mergeSort fun a b => decide (a.1 ≤ b.1)).Perm ps := List.mergeSort_perm ps _
  have hsorted := List.sorted_mergeSort htrans htotal ps
  have hs2 : ((ps.mergeSort fun a b => decide (a.1 ≤ b.1)).map Prod.fst).Pairwise
      (fun a b : ℕ => a ≤ b) := by
    rw [List.pairwise_map]
    exact hsorted.imp (by intro a b hab; simpa using hab)
  have hfsteq : (ps.mergeSort fun a b => decide (a.1 ≤ b.1)).map Prod.fst = List.range n := by
    refine List.eq_of_perm_of_sorted ((hperm.map Prod.fst).trans h) hs2 ?_
    exact List.sorted_le_range n
  obtain ⟨i, hi⟩ := List.get_of_mem (hperm.mem_iff.mpr hp)
  have hlen : (ps.mergeSort fun a b => decide (a.1 ≤ b.1)).length = n := by
    have := congrArg List.length hfsteq
    simpa using this
  have hfst : p.1 = i.1 := by
    have hm : ((ps.mergeSort fun a b => decide (a.1 ≤ b.1)).map Prod.fst).get? i.1
        = some p.1 := by
      rw [List.get?_map, List.get?_eq_get i.2]
      simp only [List.get_eq_getElem] at hi
      simp [hi]
    rw [hfsteq] at hm
    have hin : i.1 < n := by
      rw [← hlen]
      exact i.2
    rw [List.get?_eq_get (by simpa using hin), List.get_range] at hm
    exact (Option.some.inj hm).symm
  have hplt : p.1 < (ps.mergeSort fun a b => decide (a.1 ≤ b.1)).length := by
    rw [hfst]
    exact i.2
  rw [List.get?_eq_get hplt]
  congr 1
  obtain ⟨iv, hiv⟩ := i
  simp only at hfst
  subst hfst
  exact hi

/-- The definitional unfolding of `extend_and_sort_attributions_to_scores`. -/
theorem extend_and_sort_eq {α : Type} (scores : List ℚ) (attributions : List α)
    (fill : α) :
    extend_and_sort_attributions_to_scores scores attributions fill
      = if 0 < (scores.length : Int) - (attributions.length : Int) then
          ((((desc_sort_idx scores).zip
              (attributions ++ List.replicate (scores.length - attributions.length) fill)).mergeSort
                fun a b => decide (a.1 ≤ b.1)).map Prod.snd,
            attributions ++ List.replicate (scores.length - attributions.length) fill)
        else (attributions, attributions) := rfl

/-- Claim C3, counterexample: for scores `[0.2, 0.9]` and attributions
`[a0, a1]` (same length), the helper returns the list unchanged, whereas the
claim mandates that the attribution at position 0 move to the position of the
highest score (position 1), i.e. `[a1, a0]`. -/
theorem C3_counterexample :
    (extend_and_sort_attributions_to_scores [mkRat 2 10, mkRat 9 10] [(0 : ℕ), 1] 99).1 = [0, 1]
    ∧ [(0 : ℕ), 1] ≠ [1, 0] :=
  ⟨rfl, by decide⟩

/-- Claim C3, amended: the re-ordering and padding happen only when the
attribution list is strictly shorter than the scores list (otherwise the input
list is returned unchanged, so the length equality fails for longer inputs and
nothing moves for equal lengths). When strictly shorter: the result has the
length of the scores list; `desc_sort_idx` is a permutation of all positions
along which the scores are non-increasing (ties ranked in reverse input order
by the reversed ascending argsort, not stably); the attribution originally at
position `j` (or the fill value for `j` beyond the input) is placed at
position `desc_sort_idx scores j`, the position of the j-th highest score. In
particular, for scores `[0.2, 0.9, 0.5]` and attributions `[a0]`, the result
assigns `a0` to the position holding score 0.9 and the fill value to the other
two positions. -/
theorem C3_amended_alignment {α : Type} (scores : List ℚ) (attributions : List α) (fill : α)
    (a0 f0 : α) :
    (scores.length ≤ attributions.length →
      (extend_and_sort_attributions_to_scores scores attributions fill).1 = attributions)
    ∧ (attributions.length < scores.length →
        (extend_and_sort_attributions_to_scores scores attributions fill).1.length
            = scores.length
        ∧ (desc_sort_idx scores).Perm (List.range scores.length)
        ∧ (desc_sort_idx scores).Pairwise (fun i j => scores.getD j 0 ≤ scores.getD i 0)
        ∧ ∀ j, j < scores.length →
            (extend_and_sort_attributions_to_scores scores attributions fill).1.getD
                ((desc_sort_idx scores).getD j 0) fill
              = (attributions
                  ++ List.replicate (scores.length - attributions.length) fill).getD j fill)
    ∧ (extend_and_sort_attributions_to_scores [mkRat 2 10, mkRat 9 10, mkRat 5 10] [a0] f0).1
        = [f0, a0, f0] := by
  refine ⟨?_, ?_, by with_unfolding_all rfl⟩
  · intro h
    rw [extend_and_sort_eq, if_neg (by omega)]
  · intro h
    rw [extend_and_sort_eq, if_pos (by omega)]
    set ext := attributions ++ List.replicate (scores.length - attributions.length) fill with hext
    have hextlen : ext.length = scores.length := by
      simp only [hext, List.length_append, List.length_replicate]
      omega
    have hdlen : (desc_sort_idx scores).length = scores.length := desc_sort_idx_length scores
    have hziplen : ((desc_sort_idx scores).zip ext).length = scores.length := by
      simp [List.length_zip, hextlen, hdlen]
    refine ⟨?_, desc_sort_idx_perm_range scores, desc_sort_idx_pairwise scores, ?_⟩
    · simp [List.length_map, List.length_mergeSort, hziplen]
    · intro j hj
      have hjd : j < (desc_sort_idx scores).length := by omega
      have hje : j < ext.length := by omega
      have hjz : j < ((desc_sort_idx scores).zip ext).length := by omega
      have hpz : ((desc_sort_idx scores).zip ext).get ⟨j, hjz⟩
          = ((desc_sort_idx scores).get ⟨j, hjd⟩, ext.get ⟨j, hje⟩) := List.get_zip
      have hpmem : ((desc_sort_idx scores).get ⟨j, hjd⟩, ext.get ⟨j, hje⟩)
          ∈ (desc_sort_idx scores).zip ext := by
        rw [← hpz]
        exact List.get_mem _ _ _
      have hmapfst : ((desc_sort_idx scores).zip ext).map Prod.fst = desc_sort_idx scores :=
        List.map_fst_zip _ _ (by omega)
      have hpermfst : (((desc_sort_idx scores).zip ext).map Prod.fst).Perm
          (List.range scores.length) := by
        rw [hmapfst]
        exact desc_sort_idx_perm_range scores
      have hkey := mergeSort_get?_of_fst_perm_range _ hpermfst hpmem
      have hget? : ((((desc_sort_idx scores).zip ext).mergeSort
            fun a b => decide (a.1 ≤ b.1)).map Prod.snd).get?
            ((desc_sort_idx scores).get ⟨j, hjd⟩)
          = some (ext.get ⟨j, hje⟩) := by
        rw [List.get?_map, hkey]
        rfl
      have hgd : (desc_sort_idx scores).getD j 0 = (desc_sort_idx scores).get ⟨j, hjd⟩ := by
        rw [List.getD_eq_getD_get?, List.get?_eq_get hjd]
        rfl
      rw [hgd, List.getD_eq_getD_get?, hget?, List.getD_eq_getD_get?, List.get?_eq_get hje]

theorem C3_witness :
    (extend_and_sort_attributions_to_scores [mkRat 2 10, mkRat 9 10, mkRat 5 10]
        [(7 : ℕ)] 0).1.getD
        ((desc_sort_idx [mkRat 2 10, mkRat 9 10, mkRat 5 10]).getD 0 0) 0
      = (([(7 : ℕ)] ++ List.replicate 2 0).getD 0 0)
    ∧ (extend_and_sort_attributions_to_scores [mkRat 2 10, mkRat 9 10, mkRat 5 10]
        [(7 : ℕ), 8, 9] 0).1 = [7, 8, 9] :=
  ⟨((C3_amended_alignment [mkRat 2 10, mkRat 9 10, mkRat 5 10] [(7 : ℕ)] 0 7 0).2.1
      (by decide)).2.2.2 0 (by decide),
   (C3_amended_alignment [mkRat 2 10, mkRat 9 10, mkRat 5 10] [(7 : ℕ), 8, 9] 0 7 0).1
      (by decide)⟩

/-- Claim C2: `from_generation` never builds any prediction. Lines 479-481 of
the source call `overwrite_from_model_api_output` with its arguments in the
wrong order and without the required `value` argument, so every call raises
`TypeError` instead of producing the documented placeholder-score envelope. -/
theorem C2_generation_always_raises (questions : PyVal) (out : GenOutput) (context : PyVal)
    (context_score : PyScoreVal) :
    from_generation questions out context context_score = .error .typeError := rfl

unseal List.merge List.mergeSort in
/-- Claim C8, counterexample: a graph-classification payload that carries
adversarial annotations. The resulting envelope drops them (`adversarial` is
`none`) and its predictions are ranked, not in the zip order
`[cexGraphPA, cexGraphPB]`: sorting is not suppressed. -/
theorem C8_counterexample :
    from_sequence_classification_with_graph (.pystr "q") ["a", "b"] cexGraphOut
      = .ok { predictions := [cexGraphPB, cexGraphPA], adversarial := none }
    ∧ graphZipPredictions ["q", "q"] cexGraphOut.logits0 ["a", "b"] cexGraphOut
        = [cexGraphPA, cexGraphPB]
    ∧ ([cexGraphPB, cexGraphPA] : List Prediction) ≠ [cexGraphPA, cexGraphPB] := by
  refine ⟨by decide, by decide, by decide⟩

/-- Claim C8, amended: `from_sequence_classification_with_graph` ignores any
adversarial annotation in its payload: the envelope never carries adversarial
info and the ranking policy is always applied — its predictions are the ranked
(non-increasing key order) permutation of the zip-produced list, never the raw
zip order when that order is unsorted. -/
theorem C8_amended_always_sorts (questions : PyVal) (answers : List String)
    (out : SeqClfGraphOutput) (qs : List String)
    (hq : overwrite_from_model_api_output out.questions questions out.logits0.length
        = .pylist qs) :
    ∃ env, from_sequence_classification_with_graph questions answers out = .ok env
      ∧ env.adversarial = none
      ∧ env.predictions.Pairwise
          (fun a b => keyLE (sort_predictions_key b) (sort_predictions_key a) = true)
      ∧ env.predictions.Perm (graphZipPredictions qs out.logits0 answers out) := by
  refine ⟨QueryOutput.make (graphZipPredictions qs out.logits0 answers out) none, ?_, rfl,
    sort_none_pairwise _, sort_none_perm _⟩
  unfold from_sequence_classification_with_graph
  rw [hq]

theorem C8_witness :
    ∃ env, from_sequence_classification_with_graph (.pystr "q") ["a", "b"] cexGraphOut = .ok env
      ∧ env.adversarial = none
      ∧ env.predictions.Pairwise
          (fun a b => keyLE (sort_predictions_key b) (sort_predictions_key a) = true)
      ∧ env.predictions.Perm
          (graphZipPredictions ["q", "q"] cexGraphOut.logits0 ["a", "b"] cexGraphOut) :=
  C8_amended_always_sorts (.pystr "q") ["a", "b"] cexGraphOut ["q", "q"] (by decide)

theorem prediction_documents_iter_length {n : Nat} {c : PyVal}
    {ds : List (List PredictionDocument)}
    (h : prediction_documents_iter_from_context n c = .ok ds) : ds.length = n := by
  unfold prediction_documents_iter_from_context at h
  cases c with
  | pynone =>
      cases h
      simp
  | pystr s =>
      cases h
      simp
  | pylist cs =>
      dsimp only at h
      by_cases hl : cs.length ≠ n
      · rw [if_pos hl] at h
        cases h
      · rw [if_neg hl] at h
        cases h
        simp only [List.length_map]
        omega
  | pyother t => cases h

theorem padTo_of_length_eq {α : Type} {m : Nat} {l : List α} (h : l.length = m) :
    padTo m l = l.map some := by
  subst h
  simp [padTo]

theorem padTo_length {α : Type} (m : Nat) (l : List α) :
    (padTo m l).length = max m l.length := by
  simp only [padTo, List.length_append, List.length_map, List.length_replicate]
  omega

theorem extend_result_length_of_le {α : Type} (scores : List ℚ) (attrs : List α) (fill : α)
    (h : attrs.length ≤ scores.length) :
    ((extend_and_sort_attributions_to_scores scores attrs fill).1).length = scores.length := by
  rw [extend_and_sort_eq]
  by_cases hlt : attrs.length < scores.length
  · rw [if_pos (by omega)]
    simp only [List.length_map, List.length_mergeSort, List.length_zip,
      desc_sort_idx_length, List.length_append, List.length_replicate]
    omega
  · rw [if_neg (by omega)]
    simp only
    omega

theorem mapM_build_eq : ∀ (qs : List String) (scs : List ℚ) (ans : List String)
    (ds : List (List PredictionDocument)) (ts : List (Option (Option PyAttr))),
    qs.length = scs.length → qs.length = ans.length → qs.length = ds.length →
    qs.length = ts.length →
    ((qs.map some).zip ((scs.map some).zip ((ans.map some).zip
        ((ds.map some).zip ts)))).mapM buildSeqClfPrediction
      = .ok (zip5Build qs scs ans ds ts) := by
  intro qs
  induction qs with
  | nil =>
      intro scs ans ds ts h1 h2 h3 h4
      rfl
  | cons q qs ih =>
      intro scs ans ds ts h1 h2 h3 h4
      cases scs with
      | nil => simp at h1
      | cons sc scs =>
          cases ans with
          | nil => simp at h2
          | cons a ans =>
              cases ds with
              | nil => simp at h3
              | cons d ds =>
                  cases ts with
                  | nil => simp at h4
                  | cons t ts =>
                      simp only [List.map_cons, List.zip_cons_cons, List.mapM_cons]
                      rw [ih scs ans ds ts (by simpa using h1) (by simpa using h2)
                        (by simpa using h3) (by simpa using h4)]
                      rfl

theorem zip5Build_get? : ∀ (qs : List String) (scs : List ℚ) (ans : List String)
    (ds : List (List PredictionDocument)) (ts : List (Option (Option PyAttr))) (i : Nat),
    i < qs.length → i < scs.length → i < ans.length → i < ds.length → i < ts.length →
    (zip5Build qs scs ans ds ts).get? i
      = some (mkSeqClfPrediction (qs.getD i "") (scs.getD i 0) (ans.getD i "")
          (ds.getD i []) (ts.getD i none)) := by
  intro qs
  induction qs with
  | nil =>
      intro scs ans ds ts i h1 h2 h3 h4 h5
      simp at h1
  | cons q qs ih =>
      intro scs ans ds ts i h1 h2 h3 h4 h5
      cases scs with
      | nil => simp at h2
      | cons sc scs =>
          cases ans with
          | nil => simp at h3
          | cons a ans =>
              cases ds with
              | nil => simp at h4
              | cons d ds =>
                  cases ts with
                  | nil => simp at h5
                  | cons t ts =>
                      cases i with
                      | zero => rfl
                      | succ i =>
                          show (zip5Build qs scs ans ds ts).get? i = _
                          rw [ih scs ans ds ts i (by simpa using h1) (by simpa using h2)
                            (by simpa using h3) (by simpa using h4) (by simpa using h5)]
                          rfl

theorem mkSeqClfPrediction_fields (q : String) (sc : ℚ) (ans : String)
    (docs : List PredictionDocument) (t : Option (Option PyAttr)) :
    (mkSeqClfPrediction q sc ans docs t).question = q
    ∧ (mkSeqClfPrediction q sc ans docs t).prediction_score = sc
    ∧ (mkSeqClfPrediction q sc ans docs t).prediction_output
        = { output := ans, output_score := sc }
    ∧ (mkSeqClfPrediction q sc ans docs t).prediction_documents = docs := by
  unfold mkSeqClfPrediction
  match t with
  | none => exact ⟨rfl, rfl, rfl, rfl⟩
  | some none => exact ⟨rfl, rfl, rfl, rfl⟩
  | some (some a) =>
      by_cases h : a.entries.isEmpty <;> simp [h]

theorem seqClfAssemble_eq (qs : List String) (scores : List ℚ) (answers : List String)
    (docs : List (List PredictionDocument)) (attrs : List (Option PyAttr))
    (adversarial : Option (Option Adversarial))
    (h1 : qs.length = scores.length) (h2 : answers.length = scores.length)
    (h3 : docs.length = scores.length) (h4 : attrs.length ≤ scores.length) :
    seqClfAssemble (.pylist qs) scores answers docs attrs adversarial
      = match adversarial with
        | some adv => .ok (QueryOutput.make (zip5Build qs scores answers docs
            (padTo scores.length attrs)) adv)
        | none => .ok (QueryOutput.make (zip5Build qs scores answers docs
            (padTo scores.length attrs)) none) := by
  unfold seqClfAssemble
  dsimp only
  have hm : max (max (max (max qs.length scores.length) answers.length) docs.length)
      attrs.length = scores.length := by omega
  rw [hm, padTo_of_length_eq h1, padTo_of_length_eq (rfl : scores.length = scores.length),
    padTo_of_length_eq h2, padTo_of_length_eq h3]
  rw [mapM_build_eq qs scores answers docs (padTo scores.length attrs) h1
    (h1.trans h2.symm) (h1.trans h3.symm) (by rw [padTo_length]; omega)]

/-- Claim C5: when the classification payload carries adversarial annotations,
the resulting envelope keeps them verbatim and its predictions are exactly the
positional zip of the aligned inputs, in zip order — no re-sorting of any
kind: the prediction at index `i` is built from the i-th question, the i-th
logit, the i-th answer and the i-th document list. -/
theorem C5_adversarial_preserves_zip_order (questions : PyVal) (answers : List String)
    (out : SeqClfOutput) (context : PyVal) (adv : Adversarial) (qs : List String)
    (docs : List (List PredictionDocument))
    (hadv : out.adversarial = some (some adv))
    (hq : overwrite_from_model_api_output out.questions questions out.logits0.length
        = .pylist qs)
    (hql : qs.length = out.logits0.length)
    (hal : answers.length = out.logits0.length)
    (hctx : prediction_documents_iter_from_context answers.length
        (overwrite_from_model_api_output out.context context out.logits0.length) = .ok docs)
    (hattr : (out.attributions.getD []).length ≤ out.logits0.length) :
    (from_sequence_classification questions answers out context).1
      = .ok { predictions := zip5Build qs out.logits0 answers docs
                (padTo out.logits0.length
                  (extend_and_sort_attributions_to_scores out.logits0
                    (out.attributions.getD []) none).1),
              adversarial := some adv }
    ∧ ∀ i, i < out.logits0.length →
        ∃ p, (zip5Build qs out.logits0 answers docs
                (padTo out.logits0.length
                  (extend_and_sort_attributions_to_scores out.logits0
                    (out.attributions.getD []) none).1)).get? i = some p
          ∧ p.question = qs.getD i ""
          ∧ p.prediction_score = out.logits0.getD i 0
          ∧ p.prediction_output
              = { output := answers.getD i "", output_score := out.logits0.getD i 0 }
          ∧ p.prediction_documents = docs.getD i [] := by
  have hdl : docs.length = out.logits0.length := by
    rw [prediction_documents_iter_length hctx]
    exact hal
  have hel : ((extend_and_sort_attributions_to_scores out.logits0
      (out.attributions.getD []) none).1).length = out.logits0.length :=
    extend_result_length_of_le _ _ _ hattr
  constructor
  · have hmain : (from_sequence_classification questions answers out context).1
        = seqClfAssemble (.pylist qs) out.logits0 answers docs
            ((extend_and_sort_attributions_to_scores out.logits0
              (out.attributions.getD []) none).1) out.adversarial := by
      unfold from_sequence_classification
      dsimp only
      rw [hctx, hq]
    rw [hmain, seqClfAssemble_eq qs out.logits0 answers docs _ out.adversarial hql hal hdl
      (le_of_eq hel), hadv]
    rfl
  · intro i hi
    refine ⟨mkSeqClfPrediction (qs.getD i "") (out.logits0.getD i 0) (answers.getD i "")
      (docs.getD i []) ((padTo out.logits0.length
        (extend_and_sort_attributions_to_scores out.logits0
          (out.attributions.getD []) none).1).getD i none), ?_, ?_⟩
    · exact zip5Build_get? qs out.logits0 answers docs _ i (by omega) hi (by omega) (by omega)
        (by rw [padTo_length]; omega)
    · obtain ⟨f1, f2, f3, f4⟩ := mkSeqClfPrediction_fields (qs.getD i "")
        (out.logits0.getD i 0) (answers.getD i "") (docs.getD i [])
        ((padTo out.logits0.length
          (extend_and_sort_attributions_to_scores out.logits0
            (out.attributions.getD []) none).1).getD i none)
      exact ⟨f1, f2, f3, f4⟩

unseal List.merge List.mergeSort in
theorem C5_witness :
    (from_sequence_classification (.pystr "q") ["a", "b"] demoSeqOut .pynone).1
      = .ok { predictions := zip5Build ["q", "q"] demoSeqOut.logits0 ["a", "b"] [[], []]
                (padTo demoSeqOut.logits0.length
                  (extend_and_sort_attributions_to_scores demoSeqOut.logits0
                    (demoSeqOut.attributions.getD []) none).1),
              adversarial := some { indices := some [0, 1] } } :=
  (C5_adversarial_preserves_zip_order (.pystr "q") ["a", "b"] demoSeqOut .pynone
    { indices := some [0, 1] } ["q", "q"] [[], []] rfl (by decide) (by decide) (by decide)
    (by decide) (by decide)).1

unseal List.merge List.mergeSort in
/-- Claim C9, counterexample: a classification payload whose `attributions`
list (one entry) is shorter than its logits (two) is mutated by the call:
`extend_and_sort_attributions_to_scores` appends the fill value to the
caller's list in place, so the payload differs after the call. -/
theorem C9_counterexample :
    (from_sequence_classification (.pystr "q") ["a", "b"] cexSeqOut .pynone).2 ≠ cexSeqOut := by
  decide

/-- Claim C9, amended: the conversion strategies never mutate their payload
except in one case, `from_sequence_classification` with a payload that carries
an `attributions` list: once the documents iterator has been built
successfully, a list strictly shorter than the logits is extended in place
with fill values up to the logits length (longer or equal lists are left
alone); every other payload field is always unchanged, and nothing is mutated
when the key is absent or when the call fails before the extend step. -/
theorem C9_mutation_exact (questions : PyVal) (answers : List String) (out : SeqClfOutput)
    (context : PyVal) :
    ((from_sequence_classification questions answers out context).2.logits0 = out.logits0
      ∧ (from_sequence_classification questions answers out context).2.questions = out.questions
      ∧ (from_sequence_classification questions answers out context).2.context = out.context
      ∧ (from_sequence_classification questions answers out context).2.adversarial
          = out.adversarial)
    ∧ (out.attributions = none →
        (from_sequence_classification questions answers out context).2 = out)
    ∧ (∀ e, prediction_documents_iter_from_context answers.length
          (overwrite_from_model_api_output out.context context out.logits0.length) = .error e →
        (from_sequence_classification questions answers out context).2 = out)
    ∧ (∀ l ds, out.attributions = some l →
        prediction_documents_iter_from_context answers.length
          (overwrite_from_model_api_output out.context context out.logits0.length) = .ok ds →
        (from_sequence_classification questions answers out context).2.attributions
          = some (if l.length < out.logits0.length
              then l ++ List.replicate (out.logits0.length - l.length) (none : Option PyAttr)
              else l)) := by
  unfold from_sequence_classification
  dsimp only
  cases hpdi : prediction_documents_iter_from_context answers.length
      (overwrite_from_model_api_output out.context context out.logits0.length) with
  | error e =>
      refine ⟨⟨rfl, rfl, rfl, rfl⟩, fun _ => rfl, fun _ _ => rfl, ?_⟩
      intro l ds hl hds
      cases hds
  | ok ds =>
      dsimp only
      cases hattr : out.attributions with
      | none =>
          refine ⟨⟨rfl, rfl, rfl, rfl⟩, fun _ => rfl, ?_, ?_⟩
          · intro e h
            cases h
          · intro l ds' hl hds'
            cases hl
      | some l =>
          refine ⟨⟨rfl, rfl, rfl, rfl⟩, ?_, ?_, ?_⟩
          · intro h
            cases h
          · intro e h
            cases h
          · intro l' ds' hl' hds'
            have hll : l = l' := Option.some.inj hl'
            subst hll
            show some (extend_and_sort_attributions_to_scores out.logits0
                ((some l).getD []) none).2 = _
            rw [extend_and_sort_eq]
            by_cases hlen : l.length < out.logits0.length
            · rw [if_pos (by simp only [Option.getD_some]; omega)]
              simp only [Option.getD_some]
              rw [if_pos hlen]
            · rw [if_neg (by simp only [Option.getD_some]; omega)]
              simp only [Option.getD_some]
              rw [if_neg hlen]

unseal List.merge List.mergeSort in
theorem C9_witness :
    (from_sequence_classification (.pystr "q") ["a", "b"] cexSeqOut .pynone).2.attributions
      = some (if ([some { entries := [("k", [[1]])] }] : List (Option PyAttr)).length
            < cexSeqOut.logits0.length
          then [some { entries := [("k", [[1]])] }]
            ++ List.replicate (cexSeqOut.logits0.length
                - ([some { entries := [("k", [[1]])] }] : List (Option PyAttr)).length)
              (none : Option PyAttr)
          else [some { entries := [("k", [[1]])] }]) :=
  (C9_mutation_exact (.pystr "q") ["a", "b"] cexSeqOut .pynone).2.2.2
    [some { entries := [("k", [[1]])] }] [[], []] rfl (by decide)

theorem mapM_cons_error {α β : Type} (f : α → Except PyError β) (a : α) (l : List α)
    {e : PyError} (h : f a = .error e) : (a :: l).mapM f = .error e := by
  rw [List.mapM_cons, h]
  rfl

theorem mapM_enum_head_error {α β : Type} (f : Nat × α → Except PyError β) (a : α)
    (l : List α) {e : PyError} (h : f (0, a) = .error e) :
    (a :: l).enum.mapM f = .error e := by
  rw [show (a :: l).enum = (0, a) :: l.enumFrom 1 from rfl]
  exact mapM_cons_error f (0, a) _ h

theorem mapM_error_of_mem {α β : Type} (f : α → Except PyError β) (l : List α)
    (h : ∃ a ∈ l, ∃ e, f a = .error e) : ∃ e, l.mapM f = .error e := by
  induction l with
  | nil =>
      obtain ⟨a, ha, _⟩ := h
      cases ha
  | cons x l ih =>
      cases hfx : f x with
      | error e => exact ⟨e, mapM_cons_error f x l hfx⟩
      | ok b =>
          obtain ⟨a, ha, e, he⟩ := h
          rcases List.mem_cons.mp ha with rfl | ha'
          · rw [hfx] at he
            cases he
          · obtain ⟨e', he'⟩ := ih ⟨a, ha', e, he⟩
            refine ⟨e', ?_⟩
            rw [List.mapM_cons, hfx, he']
            rfl

theorem qaResolveCtx_csnone (cs : List String) (i : Nat) :
    ∃ e, qaResolveCtx (.pylist cs) .csnone i = .error e := by
  unfold qaResolveCtx
  dsimp only
  cases h : pyIndex cs i with
  | error e => exact ⟨e, rfl⟩
  | ok c => exact ⟨.typeError, rfl⟩

theorem qaResolveCtx_cslist_short (cs : List String) (ss : List ℚ) (i : Nat)
    (h : ss.length ≤ i) : ∃ e, qaResolveCtx (.pylist cs) (.cslist ss) i = .error e := by
  unfold qaResolveCtx
  dsimp only
  cases hc : pyIndex cs i with
  | error e => exact ⟨e, rfl⟩
  | ok c =>
      refine ⟨.indexError, ?_⟩
      have hnone : ss.get? i = none := List.get?_eq_none.mpr h
      unfold pyIndex
      rw [hnone]

theorem qaGroup_error_of_resolve_error {context : PyVal} {cscore : PyScoreVal}
    {attrs : Option (List PyAttr)} {i : Nat} {q : String} {ans : List QAAnswer} {e : PyError}
    (h : qaResolveCtx context cscore i = .error e) :
    qaGroup context cscore attrs i q ans = .error e := by
  unfold qaGroup
  rw [h]
  rfl

unseal List.merge List.mergeSort in
/-- Claim C10, counterexample: `context` is the two-element list
`["A", "B"]`, `context_score` the one-element list `[1]` (shorter than
context), and the payload has exactly one question/answer group — yet the
call succeeds and returns an envelope, because only the iterated group
indices are ever used to subscript `context_score`. -/
theorem C10_counterexample :
    ([(1 : ℚ)].length < (["A", "B"] : List String).length)
    ∧ cexQAOut.answers ≠ []
    ∧ from_question_answering (.pystr "q") cexQAOut (.pylist ["A", "B"]) (.cslist [1])
        = .ok { predictions := [cexQAPred], adversarial := none } :=
  ⟨by decide, by decide, by decide⟩

/-- Claim C10, amended: with a list context, a `None` context score makes
every call raise as soon as one question/answer group is iterated (nonempty
answers payload and resolved questions not the empty list); a list context
score makes the call raise whenever it is shorter than the number of iterated
groups (`min` of resolved-question and answer-group counts). A context-score
list merely shorter than the context list does not by itself raise. -/
theorem C10_amended_qa_errors (questions : PyVal) (out : QAOutput) (cs : List String) :
    (out.answers ≠ [] →
      overwrite_from_model_api_output out.questions questions out.answers.length
          ≠ .pylist [] →
      ∃ e, from_question_answering questions out (.pylist cs) .csnone = .error e)
    ∧ ∀ ss qs, overwrite_from_model_api_output out.questions questions out.answers.length
          = .pylist qs →
        ss.length < min qs.length out.answers.length →
        ∃ e, from_question_answering questions out (.pylist cs) (.cslist ss) = .error e := by
  constructor
  · intro hans hqr
    unfold from_question_answering
    dsimp only
    cases hq : overwrite_from_model_api_output out.questions questions out.answers.length with
    | pynone => exact ⟨.typeError, rfl⟩
    | pystr s => exact ⟨.typeError, rfl⟩
    | pyother t => exact ⟨.typeError, rfl⟩
    | pylist qs =>
        cases qs with
        | nil => exact absurd hq hqr
        | cons q qs' =>
            cases hans' : out.answers with
            | nil => exact absurd hans' hans
            | cons a as' =>
                obtain ⟨e, he⟩ := qaResolveCtx_csnone cs 0
                refine ⟨e, ?_⟩
                dsimp only
                rw [show (q :: qs').zip (a :: as') = (q, a) :: qs'.zip as' from rfl]
                rw [mapM_enum_head_error
                  (fun ig => qaGroup (.pylist cs) .csnone out.attributions ig.1 ig.2.1 ig.2.2)
                  (q, a) (qs'.zip as') (qaGroup_error_of_resolve_error he)]
                rfl
  · intro ss qs hq hss
    have hi : ss.length < (qs.zip out.answers).length := by
      rw [List.length_zip]
      exact lt_min (by omega) (by omega)
    obtain ⟨ga, hga⟩ : ∃ ga, (qs.zip out.answers).get? ss.length = some ga :=
      ⟨_, List.get?_eq_get hi⟩
    have henum : (qs.zip out.answers).enum.get? ss.length = some (ss.length, ga) := by
      rw [List.get?_eq_getElem?, List.getElem?_enum, ← List.get?_eq_getElem?, hga]
      rfl
    have hmem : (ss.length, ga) ∈ (qs.zip out.answers).enum := List.get?_mem henum
    obtain ⟨e0, he0⟩ := qaResolveCtx_cslist_short cs ss ss.length (le_refl _)
    obtain ⟨e, he⟩ := mapM_error_of_mem
      (fun ig => qaGroup (.pylist cs) (.cslist ss) out.attributions ig.1 ig.2.1 ig.2.2)
      (qs.zip out.answers).enum
      ⟨(ss.length, ga), hmem, e0, qaGroup_error_of_resolve_error he0⟩
    refine ⟨e, ?_⟩
    unfold from_question_answering
    dsimp only
    rw [hq]
    dsimp only
    rw [he]
    rfl

theorem C10_witness :
    (∃ e, from_question_answering (.pystr "q") cexQAOut (.pylist ["A", "B"]) .csnone
        = .error e)
    ∧ ∃ e, from_question_answering (.pystr "q") cexQAOut (.pylist ["A", "B"])
        (.cslist []) = .error e :=
  ⟨(C10_amended_qa_errors (.pystr "q") cexQAOut ["A", "B"]).1 (by decide) (by decide),
   (C10_amended_qa_errors (.pystr "q") cexQAOut ["A", "B"]).2 [] ["q"] (by decide) (by decide)⟩

end SquareSkillApi
